import Mathlib

/-!
# Verification of the rust-elrpc connection core

Shallow embedding of the EPC (Emacs RPC) implementation in this repository.
The repository contains two parallel protocol stacks:

* the `lexpr`-based stack: `protocol.rs` (`Message`, `Framer`), `client.rs`
  (`Client`), `server.rs` (`Server`, `process_message`), `registry.rs`
  (`MethodRegistry`);
* the hand-rolled stack: `types.rs` (`EpcValue`), `message.rs` (`Message`,
  custom S-expression reader/writer), `server_handler.rs`
  (`ServerConnectionHandler`).

Both are embedded below.  Bytes are modelled as `Nat` values (< 256 on all
inputs of interest), byte strings as `List Nat`, Rust `char` as Lean `Char`
and Rust `String`/`str` as Lean `String` / `List Char`.  Machine integers
`u64`/`i64`/`usize` are modelled as `Nat`/`Int`; none of the operations
embedded here can overflow on the inputs the theorems quantify over (length
prefixes are at most 6 hex digits, i.e. < 2^24).
-/

namespace Elrpc

/-! ## Byte-level helpers: `usize::from_str_radix(_, 16)`

`Framer::parse_length` decodes the first 6 bytes with `str::from_utf8` and
feeds them to `usize::from_str_radix(s, 16)`;
`ServerConnectionHandler::handle` does the same via `String::from_utf8_lossy`.
A 6-byte slice is accepted by that composition exactly when every byte is an
ASCII character accepted by `from_str_radix`: any byte ≥ 0x80 either makes
the slice invalid UTF-8 (strict decoding fails, lossy decoding produces
U+FFFD) or decodes to a non-ASCII character, and in every case
`from_str_radix` then rejects the string.  We therefore model the
composition directly on bytes.  `from_str_radix` for an unsigned type
accepts an optional leading `+` followed by a non-empty run of hex digits
(upper or lower case); a leading `-` is not accepted for `usize`.  The
overflow check of `from_str_radix` is omitted: `parse_length` always passes
exactly 6 bytes, whose value is below 2^24. -/

/-- Is `b` the ASCII code of a hexadecimal digit (`0-9`, `a-f`, `A-F`)? -/
def isHexDigitByte (b : Nat) : Bool :=
  (48 ≤ b && b ≤ 57) || (97 ≤ b && b ≤ 102) || (65 ≤ b && b ≤ 70)

/-- Numeric value of an ASCII hex digit byte. -/
def hexDigitVal (b : Nat) : Nat :=
  if 48 ≤ b && b ≤ 57 then b - 48
  else if 97 ≤ b && b ≤ 102 then b - 87
  else b - 55

/-- Digit run of `usize::from_str_radix(_, 16)`: non-empty, all hex digits,
accumulated left to right. -/
def parseHexDigits (bs : List Nat) : Option Nat :=
  if bs.isEmpty then none
  else if bs.all isHexDigitByte then some (bs.foldl (fun a b => a * 16 + hexDigitVal b) 0)
  else none

/-- `usize::from_str_radix(s, 16)` on the bytes of `s` (see section comment
for the treatment of UTF-8 decoding).  A leading `+` (byte 43) is accepted;
`-` is not accepted for an unsigned target type, and not being a hex digit
it makes the digit run fail. -/
def fromStrRadix16 (bs : List Nat) : Option Nat :=
  match bs with
  | [] => none
  | b :: rest => if b = 43 then parseHexDigits rest else parseHexDigits (b :: rest)

/-- ASCII code of the lowercase hex digit for `d < 16` (as produced by
Rust's `{:x}` formatting). -/
def hexDigitByte (d : Nat) : Nat :=
  if d < 10 then 48 + d else 87 + d

/-- Minimal lowercase hex digit string of `n`, as bytes (Rust `{:x}`). -/
def toHexMinBytes (n : Nat) : List Nat :=
  if h : n < 16 then [hexDigitByte n]
  else toHexMinBytes (n / 16) ++ [hexDigitByte (n % 16)]
  decreasing_by exact Nat.div_lt_self (by omega) (by omega)

/-- `format!("{:06x}", n)` as bytes: the minimal hex digits of `n`,
left-padded with `'0'` to at least 6 characters. -/
def toHex6Bytes (n : Nat) : List Nat :=
  let ds := toHexMinBytes n
  List.replicate (6 - ds.length) 48 ++ ds

/-! ## `Framer` (src/src/protocol.rs)

`frame` prepends the 6-hex-digit length prefix; `parse_length` reads it;
`extract_message` removes one complete frame.  The Rust `extract_message`
mutates its `BytesMut` argument; here it returns the extracted payload
together with the remaining buffer, and `none` means the buffer is left
untouched. -/

namespace Framer

/-- `Framer::frame`: prepend `format!("{:06x}", message.len())`. -/
def frame (message : List Nat) : List Nat :=
  toHex6Bytes message.length ++ message

/-- `Framer::parse_length`: `None` if fewer than 6 bytes, otherwise
`usize::from_str_radix(str::from_utf8(&buf[..6])?, 16)`. -/
def parseLength (buf : List Nat) : Option Nat :=
  if buf.length < 6 then none
  else fromStrRadix16 (buf.take 6)

/-- `Framer::extract_message`: `None` (buffer untouched) if fewer than 6
bytes, if the prefix does not parse, or if fewer than `6 + len` bytes are
available; otherwise the payload `buf[6..6+len]` and the advanced buffer. -/
def extractMessage (buf : List Nat) : Option (List Nat × List Nat) :=
  if buf.length < 6 then none
  else
    match parseLength buf with
    | none => none
    | some len =>
      if buf.length < 6 + len then none
      else some ((buf.drop 6).take len, buf.drop (6 + len))

end Framer

/-! ## The read loop of `handle_connection` (src/src/server.rs)

`handle_connection` repeatedly calls `Framer::extract_message` in a `while
let Some(...)` loop; when `extract_message` returns `None` — for an
incomplete frame *or* for an unparseable length prefix — it falls back to
`read_buf` and waits for more bytes.  `drainFrames` is that inner loop: it
returns the extracted payloads and the leftover buffer.  It never fails;
the connection is only ever terminated by I/O errors or EOF. -/

/-- The `while let Some(message_bytes) = Framer::extract_message(&mut buffer)`
loop of `handle_connection`.  Terminates because every extracted frame
consumes at least its 6-byte header. -/
def drainFrames (buf : List Nat) : List (List Nat) × List Nat :=
  match h : Framer.extractMessage buf with
  | none => ([], buf)
  | some (payload, rest) =>
    let (msgs, final) := drainFrames rest
    (payload :: msgs, final)
  termination_by buf.length
  decreasing_by
    simp only [Framer.extractMessage] at h
    split at h
    · exact Option.noConfusion h
    · split at h
      · exact Option.noConfusion h
      · split at h
        · exact Option.noConfusion h
        · simp only [Option.some.injEq, Prod.mk.injEq] at h
          have hrest : rest = List.drop (6 + _) buf := h.2.symm
          simp only [hrest, List.length_drop]
          omega

/-! ## The framing loop of `ServerConnectionHandler::handle`
(src/src/server_handler.rs)

The second stack frames messages by hand: the handler keeps a byte buffer
and an `expected_length : Option<usize>`.  When no length is pending and at
least 6 bytes are buffered it decodes the first 6 bytes with
`String::from_utf8_lossy` and `usize::from_str_radix(_, 16)`; a prefix that
does not parse is `EpcError::InvalidMessage`, propagated by `?`, which
makes `handle` return and terminates the connection.  A complete payload
must additionally be valid UTF-8 (`String::from_utf8`), again fatal if not.
`Message::from_sexpr` failures on a decoded payload are only logged. -/

/-- Is `b` a UTF-8 continuation byte (`0x80..=0xBF`)? -/
def isUtf8Cont (b : Nat) : Bool := 128 ≤ b && b ≤ 191

/-- RFC 3629 UTF-8 validity of a byte string (the acceptance condition of
`String::from_utf8`). -/
def utf8Valid : List Nat → Bool
  | [] => true
  | b :: r =>
    if b ≤ 127 then utf8Valid r
    else
      match r with
      | [] => false
      | c1 :: r1 =>
        if 194 ≤ b && b ≤ 223 then isUtf8Cont c1 && utf8Valid r1
        else
          match r1 with
          | [] => false
          | c2 :: r2 =>
            if b = 224 then (160 ≤ c1 && c1 ≤ 191) && (isUtf8Cont c2 && utf8Valid r2)
            else if (225 ≤ b && b ≤ 236) || b = 238 || b = 239 then
              isUtf8Cont c1 && (isUtf8Cont c2 && utf8Valid r2)
            else if b = 237 then (128 ≤ c1 && c1 ≤ 159) && (isUtf8Cont c2 && utf8Valid r2)
            else
              match r2 with
              | [] => false
              | c3 :: r3 =>
                if b = 240 then
                  (144 ≤ c1 && c1 ≤ 191) && (isUtf8Cont c2 && (isUtf8Cont c3 && utf8Valid r3))
                else if 241 ≤ b && b ≤ 243 then
                  isUtf8Cont c1 && (isUtf8Cont c2 && (isUtf8Cont c3 && utf8Valid r3))
                else if b = 244 then
                  (128 ≤ c1 && c1 ≤ 143) && (isUtf8Cont c2 && (isUtf8Cont c3 && utf8Valid r3))
                else false

/-- One pass of the inner `loop` of `ServerConnectionHandler::handle`,
parameterised by fuel (the loop runs at most once per buffered byte plus
twice, so `buf.length + 2` fuel is enough; fuel exhaustion returns the
current state and cannot be reached from `handlerDrain` entry points used
below).  Returns either `.error ()` — `EpcError::InvalidMessage`, which
`handle` propagates, terminating the connection — or the decoded payloads
plus the final `(expected_length, buffer)` state. -/
def handlerDrainFuel (fuel : Nat) (expected : Option Nat) (buf : List Nat) :
    Except Unit (List (List Nat) × Option Nat × List Nat) :=
  match fuel with
  | 0 => .ok ([], expected, buf)
  | f + 1 =>
    -- `if expected_length.is_none() && message_buffer.len() >= 6 { … }`
    let header : Except Unit (Option Nat × List Nat) :=
      match expected with
      | none =>
        if 6 ≤ buf.length then
          match fromStrRadix16 (buf.take 6) with
          | none => .error ()
          | some len => .ok (some len, buf.drop 6)
        else .ok (none, buf)
      | some l => .ok (some l, buf)
    match header with
    | .error () => .error ()
    | .ok (expected', buf') =>
      -- `if let Some(length) = expected_length { … } else { break }`
      match expected' with
      | none => .ok ([], none, buf')
      | some l =>
        if l ≤ buf'.length then
          let payload := buf'.take l
          if utf8Valid payload then
            match handlerDrainFuel f none (buf'.drop l) with
            | .error () => .error ()
            | .ok (msgs, e, b) => .ok (payload :: msgs, e, b)
          else .error ()
        else .ok ([], some l, buf')

/-- The inner loop of `ServerConnectionHandler::handle` on a fresh buffer
state (no pending length), with enough fuel for the loop to reach its
`break`. -/
def handlerDrain (buf : List Nat) :
    Except Unit (List (List Nat) × Option Nat × List Nat) :=
  handlerDrainFuel (buf.length + 2) none buf

/-! ## Hexadecimal formatting/parsing lemmas -/

theorem hexDigitVal_hexDigitByte {d : Nat} (hd : d < 16) :
    hexDigitVal (hexDigitByte d) = d := by
  unfold hexDigitVal hexDigitByte
  split_ifs <;> simp_all <;> omega

theorem isHexDigitByte_hexDigitByte {d : Nat} (hd : d < 16) :
    isHexDigitByte (hexDigitByte d) = true := by
  unfold isHexDigitByte hexDigitByte
  split_ifs <;> simp_all <;> omega

theorem toHexMinBytes_ne_nil (n : Nat) : toHexMinBytes n ≠ [] := by
  unfold toHexMinBytes
  split <;> simp

theorem toHexMinBytes_all_hex (n : Nat) :
    (toHexMinBytes n).all isHexDigitByte = true := by
  induction n using toHexMinBytes.induct with
  | case1 n h =>
    unfold toHexMinBytes
    simp [h, isHexDigitByte_hexDigitByte h]
  | case2 n h ih =>
    unfold toHexMinBytes
    simp only [h, dite_false, List.all_append, List.all_cons, List.all_nil]
    have : n % 16 < 16 := Nat.mod_lt _ (by omega)
    simp [ih, isHexDigitByte_hexDigitByte this]

theorem toHexMinBytes_foldl (n : Nat) :
    (toHexMinBytes n).foldl (fun a b => a * 16 + hexDigitVal b) 0 = n := by
  induction n using toHexMinBytes.induct with
  | case1 n h =>
    unfold toHexMinBytes
    simp [h, hexDigitVal_hexDigitByte h]
  | case2 n h ih =>
    unfold toHexMinBytes
    have hm : n % 16 < 16 := Nat.mod_lt _ (by omega)
    simp only [h, dite_false, List.foldl_append, List.foldl_cons, List.foldl_nil, ih,
      hexDigitVal_hexDigitByte hm]
    omega

theorem toHexMinBytes_length_le :
    ∀ (k n : Nat), n < 16 ^ (k + 1) → (toHexMinBytes n).length ≤ k + 1 := by
  intro k
  induction k with
  | zero =>
    intro n hn
    unfold toHexMinBytes
    have hn' : n < 16 := by norm_num at hn; omega
    simp [hn']
  | succ k ih =>
    intro n hn
    unfold toHexMinBytes
    split
    · simp
    · rename_i h
      have : n / 16 < 16 ^ (k + 1) := by
        have h16 : (16 : Nat) ^ (k + 2) = 16 ^ (k + 1) * 16 := by ring
        rw [h16] at hn
        omega
      have := ih (n / 16) this
      simp only [List.length_append, List.length_cons, List.length_nil]
      omega

theorem toHex6Bytes_length {n : Nat} (h : n < 16 ^ 6) :
    (toHex6Bytes n).length = 6 := by
  unfold toHex6Bytes
  have h1 : (toHexMinBytes n).length ≤ 6 := toHexMinBytes_length_le 5 n (by norm_num at h ⊢; omega)
  simp only [List.length_append, List.length_replicate]
  omega

theorem foldl_hex_replicate_zero (k : Nat) :
    (List.replicate k 48).foldl (fun a b => a * 16 + hexDigitVal b) 0 = 0 := by
  induction k with
  | zero => rfl
  | succ k ih => simpa [List.replicate_succ, hexDigitVal] using ih

/-- Parsing the `{:06x}` rendering of `n < 16^6` recovers `n`. -/
theorem fromStrRadix16_toHex6 {n : Nat} (h : n < 16 ^ 6) :
    fromStrRadix16 (toHex6Bytes n) = some n := by
  have hall : (toHex6Bytes n).all isHexDigitByte = true := by
    unfold toHex6Bytes
    simp only [List.all_append, toHexMinBytes_all_hex, Bool.and_true, List.all_eq_true]
    intro b hb
    have : b = 48 := List.eq_of_mem_replicate hb
    subst this
    decide
  have hne : toHex6Bytes n ≠ [] := by
    unfold toHex6Bytes
    intro hcontra
    have := toHexMinBytes_ne_nil n
    simp only [List.append_eq_nil] at hcontra
    exact this hcontra.2
  have hfold : (toHex6Bytes n).foldl (fun a b => a * 16 + hexDigitVal b) 0 = n := by
    unfold toHex6Bytes
    simp only [List.foldl_append, foldl_hex_replicate_zero, toHexMinBytes_foldl]
  have hparse : parseHexDigits (toHex6Bytes n) = some n := by
    unfold parseHexDigits
    simp [hne, hall, hfold]
  obtain ⟨b, t, hbt⟩ : ∃ b t, toHex6Bytes n = b :: t := by
    cases hx : toHex6Bytes n with
    | nil => exact absurd hx hne
    | cons b t => exact ⟨b, t, rfl⟩
  have hb43 : b ≠ 43 := by
    intro hb
    have hmem : b ∈ toHex6Bytes n := by rw [hbt]; exact List.mem_cons_self _ _
    have := (List.all_eq_true.mp hall) b hmem
    subst hb
    simp [isHexDigitByte] at this
  rw [hbt] at hparse ⊢
  simp [fromStrRadix16, hb43, hparse]

/-! ## Claim C2 -/

/-- Claim C2 (confirmed): for every byte string `b` of length at most
`0xFFFFFF`, extracting from a buffer holding exactly `frame(b)` yields `b`
and consumes the whole buffer; a buffer of fewer than 6 bytes, or of fewer
than `6 + declared-length` bytes, extracts nothing (and the buffer is left
unchanged, which in this embedding is the meaning of `none`). -/
theorem C2_framer_roundtrip_and_short_buffer :
    (∀ b : List Nat, b.length ≤ 0xFFFFFF →
        Framer.extractMessage (Framer.frame b) = some (b, [])) ∧
    (∀ buf : List Nat, buf.length < 6 → Framer.extractMessage buf = none) ∧
    (∀ buf len, Framer.parseLength buf = some len → buf.length < 6 + len →
        Framer.extractMessage buf = none) := by
  refine ⟨?_, ?_, ?_⟩
  · intro b hb
    have hlen : b.length < 16 ^ 6 := by norm_num at hb ⊢; omega
    have h6 : (toHex6Bytes b.length).length = 6 := toHex6Bytes_length hlen
    have hframe : Framer.frame b = toHex6Bytes b.length ++ b := rfl
    have htotal : (Framer.frame b).length = 6 + b.length := by
      rw [hframe]
      simp [h6]
    have htake : (Framer.frame b).take 6 = toHex6Bytes b.length := by
      rw [hframe, ← h6, List.take_left]
    have hparse : Framer.parseLength (Framer.frame b) = some b.length := by
      unfold Framer.parseLength
      rw [htotal, htake]
      simp [fromStrRadix16_toHex6 hlen]
    unfold Framer.extractMessage
    rw [htotal, hparse]
    have hdrop : (Framer.frame b).drop 6 = b := by
      rw [hframe, ← h6, List.drop_left]
    have hdropAll : (Framer.frame b).drop (6 + b.length) = [] := by
      apply List.drop_eq_nil_of_le
      omega
    simp [hdrop, hdropAll]
  · intro buf hbuf
    unfold Framer.extractMessage
    simp [hbuf]
  · intro buf len hparse hshort
    unfold Framer.extractMessage
    have h6 : ¬ buf.length < 6 := by
      unfold Framer.parseLength at hparse
      by_contra hlt
      simp [hlt] at hparse
    simp [h6, hparse, hshort]

/-- Claim C2 witness: the theorem applied at concrete inputs. -/
theorem C2_witness :
    Framer.extractMessage (Framer.frame [104, 105]) = some ([104, 105], []) ∧
    Framer.extractMessage [48, 48, 48] = none ∧
    Framer.extractMessage [48, 48, 48, 48, 48, 53, 120] = none :=
  ⟨C2_framer_roundtrip_and_short_buffer.1 [104, 105] (by norm_num),
   C2_framer_roundtrip_and_short_buffer.2.1 [48, 48, 48] (by norm_num),
   C2_framer_roundtrip_and_short_buffer.2.2 [48, 48, 48, 48, 48, 53, 120] 5 (by decide) (by norm_num)⟩

/-! ## Claim C4 -/

/-- Claim C4 counterexample: six `'z'` bytes (122) are not valid hex, yet
the framing layer of `protocol.rs` reports no error at all:
`Framer::parse_length` and `Framer::extract_message` return `None` — the
same answer as for an incomplete buffer — and the read loop of
`handle_connection` (src/src/server.rs) extracts nothing and keeps the
bytes buffered, waiting for more input instead of terminating the
connection. -/
theorem C4_counterexample_framer_stalls :
    Framer.parseLength (List.replicate 6 122) = none ∧
    Framer.extractMessage (List.replicate 6 122) = none ∧
    drainFrames (List.replicate 6 122) = ([], List.replicate 6 122) := by
  refine ⟨by decide, by decide, ?_⟩
  rw [drainFrames.eq_def]
  split
  · rfl
  · next payload rest h =>
      have hnone : Framer.extractMessage (List.replicate 6 122) = none := by decide
      rw [hnone] at h
      exact Option.noConfusion h

/-- Claim C4 as amended: only the hand-rolled stack behaves as claimed —
when the first 6 buffered bytes are rejected by
`from_str_radix(_, 16)` (not an optional `+` followed by hex digits),
`ServerConnectionHandler::handle` fails with the fatal
`EpcError::InvalidMessage`, terminating the connection; the `Framer` of
`protocol.rs`, used by `client.rs` and `server.rs`, instead returns `None`
exactly as for an incomplete frame, so those connections stall on such a
buffer rather than terminate. -/
theorem C4_amended_two_framing_paths :
    ∀ buf : List Nat, 6 ≤ buf.length → fromStrRadix16 (buf.take 6) = none →
      handlerDrain buf = .error () ∧ Framer.extractMessage buf = none := by
  intro buf h6 hbad
  constructor
  · unfold handlerDrain
    rw [show buf.length + 2 = (buf.length + 1) + 1 from rfl]
    unfold handlerDrainFuel
    simp [h6, hbad]
  · unfold Framer.extractMessage Framer.parseLength
    have : ¬ buf.length < 6 := by omega
    simp [this, hbad]

/-- Claim C4 witness: the amended theorem applied to six `'g'` bytes
(103), an invalid hex prefix. -/
theorem C4_witness :
    handlerDrain (List.replicate 6 103) = .error () ∧
    Framer.extractMessage (List.replicate 6 103) = none :=
  C4_amended_two_framing_paths (List.replicate 6 103) (by decide) (by decide)

/-! ## `lexpr::Value` model (used by protocol.rs, client.rs, server.rs)

`lexpr::Value` is an external collaborator; the model below covers the
variants this code base constructs or inspects (`Nil`, `Null`, `Bool`,
`Number`, `String`, `Symbol`, `Cons`).  `Char`, `Keyword`, `Bytes` and
`Vector` never occur in messages this repository produces or examines and
are omitted.  `lexpr::Number` holds an i64, u64 or f64; the integer cases
are collapsed into `Int` and the f64 payload is modelled as a rational —
no theorem below depends on floating-point rounding, NaN or infinities. -/

/-- Payload of `lexpr::Number`. -/
inductive LNum where
  | int (n : Int)
  | float (q : Rat)
deriving DecidableEq

/-- Model of `lexpr::Value`. -/
inductive LValue where
  | nil
  | null
  | bool (b : Bool)
  | number (n : LNum)
  | string (s : String)
  | symbol (s : String)
  | cons (car cdr : LValue)
deriving DecidableEq

/-- `lexpr::Value::list`: a proper cons list terminated by `Null`. -/
def LValue.ofList : List LValue → LValue
  | [] => .null
  | v :: rest => .cons v (LValue.ofList rest)

/-- `Cons::list_iter().collect()`: the cars of the cons chain (a non-cons,
non-null tail of an improper list is dropped, which is all `from_sexp`
ever sees of it). -/
def LValue.listElems : LValue → List LValue
  | .cons a d => a :: d.listElems
  | _ => []

/-- `lexpr::Number::as_u64`: `Some` exactly for non-negative integers (all
integers arising from parsing fit in 64 bits, so the range check is
subsumed by non-negativity here). -/
def LNum.asU64 : LNum → Option Nat
  | .int n => if 0 ≤ n then some n.toNat else none
  | .float _ => none

/-- Model of `ERPCError` (src/src/error.rs).  `Io`, `Parse`, `Utf8` and
`Encoding` carry error payloads from external collaborators; the payload
is collapsed to a message string.  `ApplicationError`'s backtrace field is
kept (the client always constructs it empty). -/
inductive ERPCErrorM where
  | connectionClosed
  | methodNotFound (name : String)
  | serializationError (msg : String)
  | protocolError (msg : String)
  | applicationError (cls message : String) (backtrace : List String)
  | io (msg : String)
  | invalidMessageFormat (msg : String)
  | timeout
  | processError (msg : String)
deriving DecidableEq

/-- `ERPCError`'s `Display` (the `#[error(...)]` format strings of
src/src/error.rs); `e.to_string()` in server.rs goes through this. -/
def ERPCErrorM.toDisplay : ERPCErrorM → String
  | .connectionClosed => "connection closed"
  | .methodNotFound n => "method not found: " ++ n
  | .serializationError m => "serialization error: " ++ m
  | .protocolError m => "protocol error: " ++ m
  | .applicationError c m _ => "application error: " ++ c ++ ": " ++ m
  | .io m => "I/O error: " ++ m
  | .invalidMessageFormat m => "invalid message format: " ++ m
  | .timeout => "timeout error"
  | .processError m => "process error: " ++ m

/-- The `Message` enum of src/src/protocol.rs; `uid: u64` is modelled as
`Nat`. -/
inductive PMessage where
  | call (uid : Nat) (method : String) (args : LValue)
  | ret (uid : Nat) (result : LValue)
  | returnError (uid : Nat) (error : String)
  | epcError (uid : Nat) (error : String)
  | methods (uid : Nat)
deriving DecidableEq

/-- Does a message use the `epc-error` wire kind? -/
def PMessage.isEpcErrorKind : PMessage → Bool
  | .epcError _ _ => true
  | _ => false

/-- `Message::from_sexp` (src/src/protocol.rs lines 157–305) applied to
the item list collected from the parsed value.  Where the Rust error text
interpolates `{:?}` debug output of a value, the model keeps only the
static prefix of the format string; no theorem depends on those strings.
Structural `match`es on `rest` replace the `items.len() != n` checks and
`items[i]` indexing; the accepted/rejected item lists are identical. -/
def fromSexpItems (items : List LValue) : Except ERPCErrorM PMessage :=
  match items with
  | t :: u :: rest =>
    match t with
    | .symbol sym =>
      match u with
      | .number num =>
        match num.asU64 with
        | none => .error (.invalidMessageFormat "Invalid UID value")
        | some uid =>
          if sym = "call" then
            match rest with
            | [m, args] =>
              match m with
              | .symbol s => .ok (.call uid s args)
              | .string s => .ok (.call uid s args)
              | _ => .error (.invalidMessageFormat "Expected symbol/string for method name")
            | _ => .error (.invalidMessageFormat "Call message should have 4 elements")
          else if sym = "return" then
            match rest with
            | [result] => .ok (.ret uid result)
            | _ => .error (.invalidMessageFormat "Return message should have 3 elements")
          else if sym = "return-error" then
            match rest with
            | [e] =>
              match e with
              | .string s => .ok (.returnError uid s)
              | _ => .error (.invalidMessageFormat "Expected string for error message")
            | _ => .error (.invalidMessageFormat "Return-error message should have 3 elements")
          else if sym = "epc-error" then
            match rest with
            | [e] =>
              match e with
              | .string s => .ok (.epcError uid s)
              | _ => .error (.invalidMessageFormat "Expected string for EPC error")
            | _ => .error (.invalidMessageFormat "EPC-error message should have 3 elements")
          else if sym = "methods" then
            match rest with
            | [] => .ok (.methods uid)
            | _ => .error (.invalidMessageFormat "Methods message should have 2 elements")
          else .error (.invalidMessageFormat ("Unknown message type: " ++ sym))
      | _ => .error (.invalidMessageFormat "Expected number for UID")
    | _ => .error (.invalidMessageFormat "Expected symbol for message type")
  | _ => .error (.invalidMessageFormat "Message too short")

/-- `Message::from_sexp` after `lexpr::from_str` (an external parser): a
cons value contributes its `list_iter` items, `Null` contributes
`vec![Value::Null]` (whose length 1 then fails the ≥ 2 check), anything
else is rejected. -/
def fromSexpValue (v : LValue) : Except ERPCErrorM PMessage :=
  match v with
  | .cons a d => fromSexpItems ((LValue.cons a d).listElems)
  | .null => fromSexpItems [.null]
  | _ => .error (.invalidMessageFormat "Expected list")

/-! ## `MethodRegistry` (src/src/registry.rs) and `process_message`
(src/src/server.rs)

The registry's `HashMap<String, Arc<dyn MethodHandler>>` is modelled as an
association list; `register` replaces an existing binding, and the
iteration order of `query_methods` (arbitrary for a `HashMap`) is the list
order of the model.  A handler is a function `LValue → Except ERPCErrorM
LValue`, the behaviour of `MethodHandler::call` (the serde argument/result
conversions of `register_closure` live inside the handler closure, exactly
as in the Rust code). -/

/-- `MethodInfo` of src/src/registry.rs. -/
structure MethodInfoM where
  name : String
  argSpec : Option String
  docstring : Option String
deriving DecidableEq

/-- One registry entry: the stored handler plus its metadata. -/
structure RegEntry where
  info : MethodInfoM
  handler : LValue → Except ERPCErrorM LValue

/-- `MethodRegistry` as an association list keyed by method name. -/
structure MethodRegistryM where
  entries : List (String × RegEntry)

/-- `HashMap::get` on the model. -/
def MethodRegistryM.lookup (reg : MethodRegistryM) (name : String) : Option RegEntry :=
  (reg.entries.find? (fun e => e.1 = name)).map (·.2)

/-- `MethodRegistry::call_method`: look up the handler, `MethodNotFound`
if absent, otherwise run it. -/
def MethodRegistryM.callMethod (reg : MethodRegistryM) (name : String) (args : LValue) :
    Except ERPCErrorM LValue :=
  match reg.lookup name with
  | none => .error (.methodNotFound name)
  | some entry => entry.handler args

/-- `MethodRegistry::query_methods`: every stored handler's `MethodInfo`. -/
def MethodRegistryM.queryMethods (reg : MethodRegistryM) : List MethodInfoM :=
  reg.entries.map (fun e => e.2.info)

/-- The methods-list value built by `process_message` for a `Methods`
query: `Value::list` of triples `[Value::string(name), arg_spec mapped to
string else Value::Null, docstring mapped to string else Value::Null]`. -/
def methodsListValue (infos : List MethodInfoM) : LValue :=
  LValue.ofList (infos.map (fun info =>
    LValue.ofList [LValue.string info.name,
      (match info.argSpec with | some s => LValue.string s | none => LValue.null),
      (match info.docstring with | some s => LValue.string s | none => LValue.null)]))

/-- `process_message` (src/src/server.rs lines 264–330) at the message
level: the UTF-8 decoding of the frame payload and `Message::from_sexp`
are the preceding steps, and the returned response message is serialized
with `Message::to_sexp` afterwards; both are factored out here.  A `Call`
is answered with `Return` on handler success and with `ReturnError`
carrying `e.to_string()` on *any* handler error, `MethodNotFound`
included; a `Methods` query is answered with the triples list; any other
inbound kind is an `InvalidMessageFormat` error (which `handle_connection`
turns into an `epc-error` with uid 0). -/
def processMessage (reg : MethodRegistryM) (msg : PMessage) : Except ERPCErrorM PMessage :=
  match msg with
  | .call uid method args =>
    match reg.callMethod method args with
    | .ok result => .ok (.ret uid result)
    | .error e => .ok (.returnError uid e.toDisplay)
  | .methods uid => .ok (.ret uid (methodsListValue reg.queryMethods))
  | _ => .error (.invalidMessageFormat "Unexpected message type")

/-! ## `Client` (src/src/client.rs)

`Client` holds no pending-call table.  `send_message` serializes and
writes the call, then loops on `read_buf`/`Framer::extract_message` and
returns `Message::from_sexp` of the *first* complete frame found —
whatever its UID.  `call_sync` then matches only on the kind of that
message.  `clientCallSync` models the call with `responses` being the
sequence of messages subsequently decoded from the stream (serialization,
framing and parsing are the layers already modelled above); reading EOF
before a complete frame is `ConnectionClosed`.  `serde_lexpr::from_value`
on a `Return` result is modelled as the identity, i.e. at `Ret = Value`;
for other `Ret` types a failed conversion becomes `SerializationError`,
which no claim below concerns. -/

/-- The `match response` of `Client::call_sync` (src/src/client.rs lines
107–127). -/
def clientDispatch (resp : PMessage) : Except ERPCErrorM LValue :=
  match resp with
  | .ret _ result => .ok result
  | .returnError _ e => .error (.applicationError "RuntimeError" e [])
  | .epcError _ e => .error (.protocolError e)
  | _ => .error (.invalidMessageFormat "Unexpected response type")

/-- `Client::call_sync` for a call sent with UID `uid`: resolve with the
first message decoded from the stream. -/
def clientCallSync (uid : Nat) (responses : List PMessage) : Except ERPCErrorM LValue :=
  match responses with
  | [] => .error .connectionClosed
  | r :: _ => clientDispatch r

/-! ## Claim C1 -/

/-- Claim C1 counterexample: a `Return` whose UID (999) differs from the
UID the call was sent with (1) still resolves the call — the client does
not correlate by UID and does not drop mismatched responses. -/
theorem C1_counterexample_mismatched_uid_resolves :
    clientCallSync 1 [PMessage.ret 999 LValue.null] = .ok LValue.null ∧ (999 : Nat) ≠ 1 :=
  ⟨rfl, by decide⟩

/-- Claim C1 as amended: the client performs no UID correlation at all.
There is no pending-call table; `call_sync` resolves with the first
message decoded from the stream after the call, whatever its UID (the
result is independent of the UID the call was sent with), and no response
is ever dropped for carrying an unknown UID. -/
theorem C1_amended_no_uid_correlation :
    (∀ uid uid' responses, clientCallSync uid responses = clientCallSync uid' responses) ∧
    (∀ uid r rest, clientCallSync uid (r :: rest) = clientDispatch r) :=
  ⟨fun _ _ responses => by cases responses <;> rfl, fun _ _ _ => rfl⟩

/-! ## Claim C9 -/

/-- Claim C9 (confirmed): the caller's result is determined by the kind of
the response message that completes the call: `Return` yields `Ok` with
the carried result, `ReturnError` yields the application error carrying
the handler's message, `EpcError` yields the protocol error carrying the
protocol message. -/
theorem C9_result_determined_by_response_kind :
    (∀ uid u r rest, clientCallSync uid (PMessage.ret u r :: rest) = .ok r) ∧
    (∀ uid u e rest, clientCallSync uid (PMessage.returnError u e :: rest) =
        .error (.applicationError "RuntimeError" e [])) ∧
    (∀ uid u e rest, clientCallSync uid (PMessage.epcError u e :: rest) =
        .error (.protocolError e)) :=
  ⟨fun _ _ _ _ => rfl, fun _ _ _ _ => rfl, fun _ _ _ _ => rfl⟩

/-! ## Claim C3 -/

/-- The empty method registry. -/
def emptyRegistry : MethodRegistryM := ⟨[]⟩

/-- Claim C3 counterexample: a call to the unregistered method
`does-not-exist` is answered by `process_message` with a **`ReturnError`**
(`return-error` on the wire), not an `EpcError`, and the caller therefore
receives an `Application` error, not a `Protocol` error. -/
theorem C3_counterexample_return_error_not_epc_error :
    processMessage emptyRegistry (.call 7 "does-not-exist" .null)
      = .ok (.returnError 7 "method not found: does-not-exist") ∧
    PMessage.isEpcErrorKind (.returnError 7 "method not found: does-not-exist") = false ∧
    clientDispatch (.returnError 7 "method not found: does-not-exist")
      = .error (.applicationError "RuntimeError" "method not found: does-not-exist" []) :=
  ⟨rfl, rfl, rfl⟩

/-- Claim C3 as amended: a call to an unregistered method is answered with
a `ReturnError` message carrying `MethodNotFound`'s display text
`"method not found: <name>"` (which contains the method name), and the
caller on the other side receives an `Application` error with that
message — not a `Protocol` error. -/
theorem C3_amended_unknown_method_is_return_error :
    ∀ (reg : MethodRegistryM) (uid : Nat) (m : String) (args : LValue),
      reg.lookup m = none →
      processMessage reg (.call uid m args)
        = .ok (.returnError uid ("method not found: " ++ m)) ∧
      clientDispatch (.returnError uid ("method not found: " ++ m))
        = .error (.applicationError "RuntimeError" ("method not found: " ++ m) []) ∧
      ∃ pre post, ("method not found: " ++ m) = pre ++ m ++ post := by
  intro reg uid m args hmiss
  refine ⟨?_, rfl, "method not found: ", "", by simp⟩
  simp [processMessage, MethodRegistryM.callMethod, hmiss, ERPCErrorM.toDisplay]

/-- Claim C3 witness: the amended theorem applied to the empty registry
and method name `missing`. -/
theorem C3_witness :
    processMessage emptyRegistry (.call 3 "missing" .nil)
      = .ok (.returnError 3 "method not found: missing") ∧
    clientDispatch (.returnError 3 "method not found: missing")
      = .error (.applicationError "RuntimeError" "method not found: missing" []) ∧
    ∃ pre post, ("method not found: missing" : String) = pre ++ "missing" ++ post :=
  C3_amended_unknown_method_is_return_error emptyRegistry 3 "missing" .nil rfl

/-! ## `EpcValue` (src/src/types.rs) and the hand-rolled codec
(src/src/message.rs)

The second stack works on its own value type.  Its `Float(f64)` payload is
modelled by `FloatVal` (finite values as rationals, plus infinities and
NaN); no theorem below depends on f64 rounding, and the Rust `PartialEq`
oddities of floats (`NaN != NaN`, `-0.0 == 0.0`) are not reproduced.  The
`Dict` payload `HashMap<String, EpcValue>` is modelled as an association
list; dict values are never emitted (`serialize_value` prints `nil` for a
dict) and never parsed. -/

/-- Model of an `f64` value. -/
inductive FloatVal where
  | finite (q : Rat)
  | inf (neg : Bool)
  | nan
deriving DecidableEq

/-- `EpcValue` of src/src/types.rs. -/
inductive EpcValue where
  | nil
  | bool (b : Bool)
  | int (n : Int)
  | float (f : FloatVal)
  | string (s : String)
  | symbol (s : String)
  | list (items : List EpcValue)
  | dict (entries : List (String × EpcValue))

/-- Is the value a `List`? -/
def EpcValue.isList : EpcValue → Bool
  | .list _ => true
  | _ => false

/-- The error type used by message.rs and server_handler.rs.  Modelled
from the spec: the `EpcError` enum itself is not under src/ (src/src/error.rs
defines the other stack's `ERPCError`); the constructors and the
`serialization`/`protocol` helper constructors are those invoked by
message.rs and server_handler.rs, and §7 of the spec gives the matching
error taxonomy. -/
inductive EpcErrorB where
  | serialization (msg : String)
  | protocol (msg : String)
  | methodNotFound (name : String)
  | invalidMessage
deriving DecidableEq

/-- Display text of `EpcErrorB`.  Modelled from the spec: the `Display`
impl is in the missing error module; the repository's tests expect the
method-not-found text to contain `"Method not found"` and the method
name. -/
def EpcErrorB.toDisplay : EpcErrorB → String
  | .serialization m => "Serialization error: " ++ m
  | .protocol m => "Protocol error: " ++ m
  | .methodNotFound n => "Method not found: " ++ n
  | .invalidMessage => "Invalid message format"

/-- `MessageType` of src/src/message.rs. -/
inductive MessageTypeB where
  | call
  | ret
  | returnError
  | epcError
  | methods
deriving DecidableEq

/-- `Message` of src/src/message.rs: a kind tag, a string session id and
one `EpcValue` payload. -/
structure MessageB where
  msgType : MessageTypeB
  sessionId : String
  payload : EpcValue

/-- `Message::new_return`. -/
def MessageB.newReturn (sid : String) (v : EpcValue) : MessageB := ⟨.ret, sid, v⟩

/-- `Message::new_return_error`. -/
def MessageB.newReturnError (sid : String) (e : String) : MessageB := ⟨.returnError, sid, .string e⟩

/-! ### `serialize_value` and `to_sexpr` (src/src/message.rs lines 74–142)

`serialize_value` returns `EpcResult<String>` in Rust but every branch is
`Ok`, so it is modelled as returning its characters directly.  The f64
`Display` rendering is modelled coarsely by `floatDisplay`; no theorem
depends on it. -/

/-- Coarse model of `f64`'s `Display`. -/
def floatDisplay : FloatVal → List Char
  | .finite q => if q.den = 1 then (toString q.num).data else (toString q).data
  | .inf neg => if neg then "-inf".data else "inf".data
  | .nan => "NaN".data

mutual

/-- `Message::serialize_value`: `nil`/`Bool(false)` print as `nil`,
`Bool(true)` as `t`, strings are double-quoted with only `"` escaped
(`s.replace("\"", "\\\"")` — the backslash itself is *not* escaped),
symbols are bare, lists parenthesized and space-separated, dicts print as
`nil`. -/
def serializeValue : EpcValue → List Char
  | .nil => "nil".data
  | .bool true => "t".data
  | .bool false => "nil".data
  | .int i => (toString i).data
  | .float f => floatDisplay f
  | .string s => '"' :: (s.data.flatMap (fun c => if c = '"' then ['\\', '"'] else [c])) ++ ['"']
  | .symbol s => s.data
  | .list items => '(' :: List.intercalate [' '] (serializeList items) ++ [')']
  | .dict _ => "nil".data

/-- `list.iter().map(Self::serialize_value)` of the `List` branch. -/
def serializeList : List EpcValue → List (List Char)
  | [] => []
  | v :: rest => serializeValue v :: serializeList rest

end

/-- `str::parse::<i32>` (used by `to_sexpr` for the session id, whose
unannotated integer type defaults to `i32`): optional sign, then a
non-empty run of decimal digits, within i32 range. -/
def parseI32 (t : List Char) : Option Int :=
  let decVal : List Char → Nat := fun ds => ds.foldl (fun a c => a * 10 + (c.toNat - 48)) 0
  match t with
  | '+' :: rest =>
    if rest ≠ [] ∧ rest.all Char.isDigit ∧ decVal rest ≤ 2 ^ 31 - 1 then some (decVal rest) else none
  | '-' :: rest =>
    if rest ≠ [] ∧ rest.all Char.isDigit ∧ decVal rest ≤ 2 ^ 31 then some (-(decVal rest : Int)) else none
  | _ =>
    if t ≠ [] ∧ t.all Char.isDigit ∧ decVal t ≤ 2 ^ 31 - 1 then some (decVal t) else none

/-- `Message::to_sexpr`: a call serializes as
`(call SID METHOD arg1 arg2 …)` with the method name emitted bare; any
other kind serializes as `(KIND SID PAYLOAD)`.  The session id is
`self.session_id.parse().unwrap_or(0)`. -/
def toSexpr (m : MessageB) : Except EpcErrorB (List Char) :=
  let symChars : List Char :=
    (match m.msgType with
     | .call => "call"
     | .ret => "return"
     | .returnError => "return-error"
     | .epcError => "epc-error"
     | .methods => "methods").data
  let sid : Int := (parseI32 m.sessionId.data).getD 0
  if m.msgType = .call then
    match m.payload with
    | .list (p0 :: p1 :: _) =>
      match p0, p1 with
      | .string method, .list args =>
        .ok ('(' :: List.intercalate [' ']
          ([symChars, (toString sid).data, method.data] ++ serializeList args) ++ [')'])
      | _, _ => .error (.serialization "Invalid call payload format")
    | .list _ => .error (.serialization "Call payload must have method and args")
    | _ => .error (.serialization "Call payload must be a list")
  else
    .ok ('(' :: (symChars ++ [' '] ++ (toString sid).data ++ [' '] ++ serializeValue m.payload) ++ [')'])

/-! ### The hand-rolled S-expression reader (src/src/message.rs lines
211–321)

`parse_sexpr_list` recurses into nested lists through `read_nested_list`;
the recursion is modelled with a fuel parameter.  The Rust loop diverges
on a stray `)` (and on `\r`, which `read_token` stops at but the
whitespace arm does not consume); the model burns one fuel unit per loop
iteration, so those divergences surface as a fuel-exhaustion error, which
no terminating Rust execution produces.  `data.trim()` and
`char::is_whitespace` use Rust's Unicode white-space set. -/

/-- Rust `char::is_whitespace` (the Unicode `White_Space` property). -/
def isRustWhitespace (c : Char) : Bool :=
  c.toNat = 0x09 || c.toNat = 0x0A || c.toNat = 0x0B || c.toNat = 0x0C || c.toNat = 0x0D ||
  c.toNat = 0x20 || c.toNat = 0x85 || c.toNat = 0xA0 || c.toNat = 0x1680 ||
  (0x2000 ≤ c.toNat && c.toNat ≤ 0x200A) || c.toNat = 0x2028 || c.toNat = 0x2029 ||
  c.toNat = 0x202F || c.toNat = 0x205F || c.toNat = 0x3000

/-- Rust `str::trim`. -/
def trimChars (l : List Char) : List Char :=
  ((l.dropWhile isRustWhitespace).reverse.dropWhile isRustWhitespace).reverse

/-- `read_token`: consume characters up to (not including) the first
whitespace, `(` or `)`; returns the token and the remaining input. -/
def readToken : List Char → List Char × List Char
  | [] => ([], [])
  | c :: rest =>
    if isRustWhitespace c || c = '(' || c = ')' then ([], c :: rest)
    else
      let (t, r) := readToken rest
      (c :: t, r)

/-- `read_string_literal` after the opening quote was consumed: a `\`
escapes the next character (whatever it is), an unescaped `"` ends the
literal, end of input is an error. -/
def readStringAux : List Char → Bool → List Char → Except EpcErrorB (List Char × List Char)
  | [], _, _ => .error (.serialization "Unterminated string literal")
  | c :: rest, escaped, acc =>
    if escaped then readStringAux rest false (acc ++ [c])
    else if c = '\\' then readStringAux rest true acc
    else if c = '"' then .ok (acc, rest)
    else readStringAux rest false (acc ++ [c])

/-- `read_nested_list`: copy characters, tracking paren depth, until the
depth returns to zero; end of input at non-zero depth is the mismatched
parentheses error. -/
def readNestedAux : List Char → Int → List Char → Except EpcErrorB (List Char × List Char)
  | [], level, acc =>
    if level = 0 then .ok (acc, []) else .error (.serialization "Mismatched parentheses in S-expression")
  | c :: rest, level, acc =>
    if c = '(' then readNestedAux rest (level + 1) (acc ++ [c])
    else if c = ')' then
      if level - 1 = 0 then .ok (acc ++ [c], rest)
      else readNestedAux rest (level - 1) (acc ++ [c])
    else readNestedAux rest level (acc ++ [c])

/-- `str::parse::<i64>`: optional sign, then a non-empty run of decimal
digits, within i64 range. -/
def parseI64 (t : List Char) : Option Int :=
  let decVal : List Char → Nat := fun ds => ds.foldl (fun a c => a * 10 + (c.toNat - 48)) 0
  match t with
  | '+' :: rest =>
    if rest ≠ [] ∧ rest.all Char.isDigit ∧ decVal rest ≤ 2 ^ 63 - 1 then some (decVal rest) else none
  | '-' :: rest =>
    if rest ≠ [] ∧ rest.all Char.isDigit ∧ decVal rest ≤ 2 ^ 63 then some (-(decVal rest : Int)) else none
  | _ =>
    if t ≠ [] ∧ t.all Char.isDigit ∧ decVal t ≤ 2 ^ 63 - 1 then some (decVal t) else none

/-- Split at the first `e`/`E` (exponent marker of the float grammar). -/
def splitExp : List Char → List Char × Option (List Char)
  | [] => ([], none)
  | c :: rest =>
    if c = 'e' || c = 'E' then ([], some rest)
    else
      let (m, e) := splitExp rest
      (c :: m, e)

/-- Split at the first `.`. -/
def splitDot : List Char → List Char × Option (List Char)
  | [] => ([], none)
  | c :: rest =>
    if c = '.' then ([], some rest)
    else
      let (m, e) := splitDot rest
      (c :: m, e)

/-- `str::parse::<f64>` modelled on the accepted grammar
`[+-]? (Digits (. Digits?)? | . Digits) ([eE][+-]?Digits)?` together with
the case-insensitive special values `inf`, `infinity` and `nan`.  Finite
values are computed exactly as rationals; f64 rounding and overflow to
infinity are not modelled (no theorem depends on parsed float values). -/
def parseF64 (t : List Char) : Option FloatVal :=
  let decVal : List Char → Nat := fun ds => ds.foldl (fun a c => a * 10 + (c.toNat - 48)) 0
  let (neg, body) :=
    match t with
    | '+' :: r => (false, r)
    | '-' :: r => (true, r)
    | _ => (false, t)
  let lower := body.map Char.toLower
  if lower = "inf".data || lower = "infinity".data then some (.inf neg)
  else if lower = "nan".data then some .nan
  else
    let (mant, expPart) := splitExp body
    let (ip, fpOpt) := splitDot mant
    let fp := fpOpt.getD []
    let mantOk := ip.all Char.isDigit ∧ fp.all Char.isDigit ∧ (ip ≠ [] ∨ fp ≠ [])
    let expVal : Option Int :=
      match expPart with
      | none => some 0
      | some ec =>
        match ec with
        | '+' :: ed => if ed ≠ [] ∧ ed.all Char.isDigit then some (decVal ed) else none
        | '-' :: ed => if ed ≠ [] ∧ ed.all Char.isDigit then some (-(decVal ed : Int)) else none
        | ed => if ed ≠ [] ∧ ed.all Char.isDigit then some (decVal ed) else none
    match expVal with
    | none => none
    | some ex =>
      if mantOk then
        let mag : Rat := (decVal (ip ++ fp) : Rat) * (10 : Rat) ^ (ex - fp.length)
        some (.finite (if neg then -mag else mag))
      else none

/-- `parse_token`: `nil` and `t` are special, then `i64`, then `f64`,
otherwise a symbol.  (The Rust function returns `EpcResult` but never
errs.) -/
def parseToken (token : List Char) : EpcValue :=
  if token = "nil".data then .nil
  else if token = "t".data then .bool true
  else
    match parseI64 token with
    | some n => .int n
    | none =>
      match parseF64 token with
      | some f => .float f
      | none => .symbol ⟨token⟩

mutual

/-- `parse_sexpr_list`: trim, require an outer `(`…`)` pair, then scan the
items of the inner text. -/
def parseSexprListF : Nat → List Char → Except EpcErrorB (List EpcValue)
  | 0, _ => .error (.serialization "fuel exhausted")
  | fuel + 1, data =>
    let trimmed := trimChars data
    if trimmed.head? = some '(' ∧ trimmed.getLast? = some ')' then
      parseItemsF fuel ((trimmed.drop 1).dropLast)
    else .error (.serialization "S-expression must be wrapped in parentheses")

/-- The `while let Some(char) = chars.peek()` scan of `parse_sexpr_list`:
skip `' '`/`'\t'`/`'\n'`, descend into `(`-lists, read string literals,
otherwise read a token (an empty token — possible at a stray `)` — leaves
the input unconsumed, which in Rust loops forever and here exhausts the
fuel). -/
def parseItemsF : Nat → List Char → Except EpcErrorB (List EpcValue)
  | 0, _ => .error (.serialization "fuel exhausted")
  | fuel + 1, chars =>
    match chars with
    | [] => .ok []
    | c :: rest =>
      if c = ' ' || c = '\t' || c = '\n' then parseItemsF fuel rest
      else if c = '(' then
        match readNestedAux (c :: rest) 0 [] with
        | .error e => .error e
        | .ok (listStr, remaining) =>
          match parseSexprListF fuel listStr with
          | .error e => .error e
          | .ok inner =>
            match parseItemsF fuel remaining with
            | .error e => .error e
            | .ok items => .ok (.list inner :: items)
      else if c = '"' then
        match readStringAux rest false [] with
        | .error e => .error e
        | .ok (s, remaining) =>
          match parseItemsF fuel remaining with
          | .error e => .error e
          | .ok items => .ok (.string ⟨s⟩ :: items)
      else
        match readToken (c :: rest) with
        | ([], _) => parseItemsF fuel (c :: rest)
        | (tok, remaining) =>
          match parseItemsF fuel remaining with
          | .error e => .error e
          | .ok items => .ok (parseToken tok :: items)

end

/-! ### `Message::from_sexpr` (src/src/message.rs lines 144–209) -/

/-- Session id extraction: string kept, integer rendered in decimal,
anything else rejected (negative integers are accepted). -/
def sessionIdOf : EpcValue → Option String
  | .string s => some s
  | .int i => some (toString i)
  | _ => none

/-- Method-name extraction for a call: a symbol or a string. -/
def methodNameOf : EpcValue → Option String
  | .symbol s => some s
  | .string s => some s
  | _ => none

/-- The body of `Message::from_sexpr` after `parse_sexpr_list`: needs at
least 3 elements (so a well-formed 2-element `methods` message is
rejected); for a call, the tail from index 3 onwards becomes the args —
and if that tail is exactly one element which is a list, the inner list's
elements replace it; for any other kind the 3rd element is the payload and
*extra elements are silently ignored*. -/
def fromSexprOfList (list : List EpcValue) : Except EpcErrorB MessageB :=
  match list with
  | e0 :: e1 :: e2 :: rest =>
    match e0 with
    | .symbol s =>
      let mt? : Option MessageTypeB :=
        if s = "call" then some .call
        else if s = "return" then some .ret
        else if s = "return-error" then some .returnError
        else if s = "epc-error" then some .epcError
        else if s = "methods" then some .methods
        else none
      match mt? with
      | none => .error (.serialization ("Unknown message type: " ++ s))
      | some mt =>
        match sessionIdOf e1 with
        | none => .error (.serialization "Second element must be a string or integer (session ID)")
        | some sid =>
          if mt = .call then
            match methodNameOf e2 with
            | none => .error (.serialization "Call message must have method name as 3rd element")
            | some m =>
              let args :=
                match rest with
                | [.list inner] => inner
                | _ => rest
              .ok ⟨.call, sid, .list [.string m, .list args]⟩
          else .ok ⟨mt, sid, e2⟩
    | _ => .error (.serialization "First element must be a symbol")
  | _ => .error (.serialization "Message must have at least 3 elements")

/-- `Message::from_sexpr`: parse, then interpret the item list.  The fuel
`data.length + 1` is enough for every terminating Rust execution. -/
def fromSexpr (data : List Char) : Except EpcErrorB MessageB :=
  match parseSexprListF (data.length + 1) data with
  | .error e => .error e
  | .ok list => fromSexprOfList list

/-- `Message::get_method_name`: for a call, the first payload element if
it is a string. -/
def MessageB.getMethodName (m : MessageB) : Option String :=
  if m.msgType = .call then
    match m.payload with
    | .list (.string method :: _) => some method
    | _ => none
  else none

/-- `Message::get_args`: for a call, the second payload element if it is a
list. -/
def MessageB.getArgs (m : MessageB) : Option (List EpcValue) :=
  if m.msgType = .call then
    match m.payload with
    | .list (_ :: .list args :: _) => some args
    | _ => none
  else none

/-! ### `ServerConnectionHandler::handle_message`
(src/src/server_handler.rs lines 81–138)

The handler map `HashMap<String, MethodHandler>` is an association list
here (iteration order of `methods.keys()` modelled as list order), and a
`MethodHandler` — whose type alias lives outside src/ — is taken at its
call site's shape: a function from the argument vector to
`Result<EpcValue, EpcError>`.  `handle_message` sends at most one
response; the model returns it (`none` for ignored message kinds). -/

/-- A registered handler of the second stack. -/
def HandlerB := List EpcValue → Except EpcErrorB EpcValue

/-- `handle_message`: dispatch a call to the named handler (answering
`Return` or `ReturnError`), answer a methods query with one triple
`(name-symbol, "", "")` per registered method — the metadata slots are
*always empty strings* — and ignore every other kind. -/
def handleMessageB (methods : List (String × HandlerB)) (msg : MessageB) :
    Except EpcErrorB (Option MessageB) :=
  match msg.msgType with
  | .call =>
    match msg.getMethodName with
    | none => .error (.protocol "Invalid call message")
    | some name =>
      let args := msg.getArgs.getD []
      let result :=
        match (methods.find? (fun p => p.1 = name)).map (·.2) with
        | some h => h args
        | none => .error (.methodNotFound name)
      match result with
      | .ok v => .ok (some (MessageB.newReturn msg.sessionId v))
      | .error e => .ok (some (MessageB.newReturnError msg.sessionId e.toDisplay))
  | .methods =>
    .ok (some (MessageB.newReturn msg.sessionId
      (.list (methods.map (fun p => .list [.symbol p.1, .string "", .string ""])))))
  | _ => .ok none

/-! ## Claim C5 -/

/-- Emitting a value and reading it back: serialize, place as the single
element of a parenthesized message body, and run `parse_sexpr_list` (with
ample fuel). -/
def wireRoundTrip (v : EpcValue) : Except EpcErrorB (List EpcValue) :=
  let s := '(' :: serializeValue v ++ [')']
  parseSexprListF (s.length + 1) s

/-- Claim C5 (code bug, evaluated at the failing input): `serialize_value`
escapes only `"` — not `\` — so the one-character string `\` emits as
`"\"` whose trailing quote the reader then treats as escaped:
`read_string_literal` runs off the end and errs with an unterminated
literal.  Likewise `a\b` comes back as `ab`, losing the backslash.
Strings containing `"`, newline, tab and non-ASCII characters (with no
backslash) do round-trip. -/
theorem C5_backslash_roundtrip_fails :
    serializeValue (.string "\\") = ['"', '\\', '"'] ∧
    wireRoundTrip (.string "\\") = .error (.serialization "Unterminated string literal") ∧
    wireRoundTrip (.string "a\\b") = .ok [.string "ab"] ∧
    ("ab" : String) ≠ "a\\b" ∧
    wireRoundTrip (.string "a\"b\nc\té") = .ok [.string "a\"b\nc\té"] :=
  ⟨rfl, rfl, rfl, by decide, rfl⟩

/-! ## Claim C8 -/

/-! `nilNormalize` replaces `Bool(false)` by `Nil` at every position at
which `serialize_value` can emit a value (dict values are never emitted —
a dict prints as `nil` — so they are left untouched). -/

mutual

def nilNormalize : EpcValue → EpcValue
  | .bool false => .nil
  | .list items => .list (nilNormalizeList items)
  | v => v

def nilNormalizeList : List EpcValue → List EpcValue
  | [] => []
  | v :: rest => nilNormalize v :: nilNormalizeList rest

end

mutual

theorem nilNormalize_serializeValue (v : EpcValue) :
    serializeValue (nilNormalize v) = serializeValue v := by
  cases v with
  | bool b => cases b <;> rfl
  | list items => simp [nilNormalize, serializeValue, nilNormalizeList_serializeList items]
  | _ => rfl

theorem nilNormalizeList_serializeList (l : List EpcValue) :
    serializeList (nilNormalizeList l) = serializeList l := by
  cases l with
  | nil => rfl
  | cons v rest =>
    simp [nilNormalizeList, serializeList, nilNormalize_serializeValue v,
      nilNormalizeList_serializeList rest]

end

/-- Claim C8 (confirmed): serialization maps both `Bool(false)` and `Nil`
to the symbol `nil` and `Bool(true)` to the symbol `t`; and this holds at
every emitted position: replacing `Bool(false)` by `Nil` anywhere in a
value changes nothing about its serialized form. -/
theorem C8_false_and_nil_emit_nil :
    serializeValue .nil = "nil".data ∧
    serializeValue (.bool false) = "nil".data ∧
    serializeValue (.bool true) = "t".data ∧
    (∀ v, serializeValue (nilNormalize v) = serializeValue v) ∧
    (∀ l, serializeList (nilNormalizeList l) = serializeList l) :=
  ⟨rfl, rfl, rfl, nilNormalize_serializeValue, nilNormalizeList_serializeList⟩

/-! ## Claim C6 -/

/-- Claim C6 counterexample: with one registered method `a` carrying no
metadata, `server_handler.rs` answers the methods query with the triple
`(a "" "")` — empty strings, never `nil` — while `server.rs` builds its
triple with the name as a *string*, not a symbol.  Each half contradicts
the claim. -/
theorem C6_counterexample_triples :
    handleMessageB [("a", fun _ => .ok .nil)] ⟨.methods, "5", .nil⟩
      = .ok (some ⟨.ret, "5", .list [.list [.symbol "a", .string "", .string ""]]⟩) ∧
    (EpcValue.string "" = EpcValue.nil → False) ∧
    methodsListValue [⟨"a", none, none⟩]
      = LValue.ofList [LValue.ofList [.string "a", .null, .null]] ∧
    LValue.string "a" ≠ LValue.symbol "a" :=
  ⟨rfl, fun h => EpcValue.noConfusion h, rfl, by decide⟩

/-- Claim C6 as amended: each stack answers a methods query with a
`Return` listing exactly one triple per registered method, but the triples
are not as claimed.  `server.rs` emits
`(name-as-STRING arg-spec-or-nil docstring-or-nil)` with `Null` for
missing metadata, and `server_handler.rs` emits
`(name-as-symbol "" "")` with empty strings always. -/
theorem C6_amended_methods_response_shapes :
    (∀ (reg : MethodRegistryM) (uid : Nat),
      processMessage reg (.methods uid) =
        .ok (.ret uid (LValue.ofList (reg.queryMethods.map (fun info =>
          LValue.ofList [.string info.name,
            info.argSpec.elim LValue.null LValue.string,
            info.docstring.elim LValue.null LValue.string]))))) ∧
    (∀ (methods : List (String × HandlerB)) (sid : String) (p : EpcValue),
      handleMessageB methods ⟨.methods, sid, p⟩ =
        .ok (some ⟨.ret, sid,
          .list (methods.map (fun q => .list [.symbol q.1, .string "", .string ""]))⟩)) := by
  constructor
  · intro reg uid
    have helim : ∀ o : Option String,
        (match o with | some s => LValue.string s | none => LValue.null)
          = o.elim LValue.null LValue.string := by
      intro o; cases o <;> rfl
    simp [processMessage, methodsListValue, helim]
  · intro methods sid p
    rfl

/-! ## Claim C7 -/

/-- Is the outcome an `InvalidMessageFormat` rejection? -/
def isInvalidFormat {α : Type} : Except ERPCErrorM α → Bool
  | .error (.invalidMessageFormat _) => true
  | _ => false

/-- Claim C7 counterexample: `message.rs`'s parser accepts
`(return 1 2 3)` — a return with an extra element — instead of rejecting
it, silently dropping the surplus `3`. -/
theorem C7_counterexample_extra_element_accepted :
    fromSexpr "(return 1 2 3)".data = .ok ⟨.ret, "1", .int 2⟩ := rfl

/-- Claim C7 as amended: only `protocol.rs`'s `Message::from_sexp` checks
arity strictly (call = 4, return / return-error / epc-error = 3,
methods = 2 elements) and rejects a UID that is not a non-negative
integer.  `message.rs`'s `Message::from_sexpr` instead requires at least
3 elements — thereby rejecting well-formed 2-element `methods` messages —
ignores extra elements of non-call messages, and accepts negative integer
session ids. -/
theorem C7_amended_arity_checks :
    (∀ (u : Nat) (m : String) (args : LValue),
      fromSexpItems [.symbol "call", .number (.int u), .symbol m, args] = .ok (.call u m args)) ∧
    (∀ (u : Nat) (v : LValue),
      fromSexpItems [.symbol "return", .number (.int u), v] = .ok (.ret u v)) ∧
    (∀ (u : Nat) (e : String),
      fromSexpItems [.symbol "return-error", .number (.int u), .string e]
        = .ok (.returnError u e)) ∧
    (∀ (u : Nat) (e : String),
      fromSexpItems [.symbol "epc-error", .number (.int u), .string e] = .ok (.epcError u e)) ∧
    (∀ (u : Nat), fromSexpItems [.symbol "methods", .number (.int u)] = .ok (.methods u)) ∧
    (∀ (n : LNum) (rest : List LValue), rest.length ≠ 2 →
      isInvalidFormat (fromSexpItems (.symbol "call" :: .number n :: rest)) = true) ∧
    (∀ (n : LNum) (rest : List LValue), rest.length ≠ 1 →
      isInvalidFormat (fromSexpItems (.symbol "return" :: .number n :: rest)) = true) ∧
    (∀ (n : LNum) (rest : List LValue), rest.length ≠ 1 →
      isInvalidFormat (fromSexpItems (.symbol "return-error" :: .number n :: rest)) = true) ∧
    (∀ (n : LNum) (rest : List LValue), rest.length ≠ 1 →
      isInvalidFormat (fromSexpItems (.symbol "epc-error" :: .number n :: rest)) = true) ∧
    (∀ (n : LNum) (rest : List LValue), rest ≠ [] →
      isInvalidFormat (fromSexpItems (.symbol "methods" :: .number n :: rest)) = true) ∧
    (∀ (neg : Int) (s : String) (rest : List LValue), neg < 0 →
      isInvalidFormat (fromSexpItems (.symbol s :: .number (.int neg) :: rest)) = true) ∧
    (∀ (u : Int) (payload : EpcValue) (extra : List EpcValue),
      fromSexprOfList (.symbol "return" :: .int u :: payload :: extra)
        = .ok ⟨.ret, toString u, payload⟩) ∧
    (∀ (u : Int), fromSexprOfList [.symbol "methods", .int u]
        = .error (.serialization "Message must have at least 3 elements")) := by
  have hu : ∀ u : Nat, (LNum.int (u : Int)).asU64 = some u := by
    intro u
    simp [LNum.asU64]
  refine ⟨?_, ?_, ?_, ?_, ?_, ?_, ?_, ?_, ?_, ?_, ?_, ?_, ?_⟩
  · intro u m args
    simp [fromSexpItems, hu]
  · intro u v
    simp [fromSexpItems, hu]
  · intro u e
    simp [fromSexpItems, hu]
  · intro u e
    simp [fromSexpItems, hu]
  · intro u
    simp [fromSexpItems, hu]
  · intro n rest h
    cases hn : n.asU64 with
    | none => simp [fromSexpItems, hn, isInvalidFormat]
    | some u =>
      rcases rest with _ | ⟨a, _ | ⟨b, _ | ⟨c, t⟩⟩⟩ <;>
        simp_all [fromSexpItems, isInvalidFormat]
  · intro n rest h
    cases hn : n.asU64 with
    | none => simp [fromSexpItems, hn, isInvalidFormat]
    | some u =>
      rcases rest with _ | ⟨a, _ | ⟨b, t⟩⟩ <;> simp_all [fromSexpItems, isInvalidFormat]
  · intro n rest h
    cases hn : n.asU64 with
    | none => simp [fromSexpItems, hn, isInvalidFormat]
    | some u =>
      rcases rest with _ | ⟨a, _ | ⟨b, t⟩⟩ <;> simp_all [fromSexpItems, isInvalidFormat]
  · intro n rest h
    cases hn : n.asU64 with
    | none => simp [fromSexpItems, hn, isInvalidFormat]
    | some u =>
      rcases rest with _ | ⟨a, _ | ⟨b, t⟩⟩ <;> simp_all [fromSexpItems, isInvalidFormat]
  · intro n rest h
    cases hn : n.asU64 with
    | none => simp [fromSexpItems, hn, isInvalidFormat]
    | some u =>
      rcases rest with _ | ⟨a, t⟩ <;> simp_all [fromSexpItems, isInvalidFormat]
  · intro neg s rest h
    have : ¬ (0 : Int) ≤ neg := by omega
    simp [fromSexpItems, LNum.asU64, this, isInvalidFormat]
  · intro u payload extra
    rfl
  · intro u
    rfl

/-- Claim C7 witness: the amended theorem's conditional parts applied at
concrete inputs (wrong arities, a tail present on `methods`, a negative
UID). -/
theorem C7_witness :
    isInvalidFormat (fromSexpItems [.symbol "call", .number (.int 1), .null]) = true ∧
    isInvalidFormat (fromSexpItems [.symbol "return", .number (.int 1), .null, .null]) = true ∧
    isInvalidFormat (fromSexpItems [.symbol "return-error", .number (.int 1)]) = true ∧
    isInvalidFormat (fromSexpItems [.symbol "epc-error", .number (.int 1), .null, .null]) = true ∧
    isInvalidFormat (fromSexpItems [.symbol "methods", .number (.int 1), .null]) = true ∧
    isInvalidFormat (fromSexpItems [.symbol "x", .number (.int (-3))]) = true :=
  ⟨C7_amended_arity_checks.2.2.2.2.2.1 (.int 1) [.null] (by decide),
   C7_amended_arity_checks.2.2.2.2.2.2.1 (.int 1) [.null, .null] (by decide),
   C7_amended_arity_checks.2.2.2.2.2.2.2.1 (.int 1) [] (by decide),
   C7_amended_arity_checks.2.2.2.2.2.2.2.2.1 (.int 1) [.null, .null] (by decide),
   C7_amended_arity_checks.2.2.2.2.2.2.2.2.2.1 (.int 1) [.null] (by decide),
   C7_amended_arity_checks.2.2.2.2.2.2.2.2.2.2.1 (-3) "x" [] (by decide)⟩

/-! ## Claim C10 -/

/-- Claim C10 (confirmed): when `from_sexpr` parses a call whose argument
tail is exactly one element that is itself a list, the inner list's
elements replace the argument list; a call with zero tail elements gets an
empty argument list, a single non-list tail element stays as the one
positional argument, and two or more tail elements are kept unchanged. -/
theorem C10_single_list_arg_flattened :
    (∀ (u : Int) (m : String) (inner : List EpcValue),
      fromSexprOfList [.symbol "call", .int u, .symbol m, .list inner]
        = .ok ⟨.call, toString u, .list [.string m, .list inner]⟩) ∧
    (∀ (u : Int) (m : String),
      fromSexprOfList [.symbol "call", .int u, .symbol m]
        = .ok ⟨.call, toString u, .list [.string m, .list []]⟩) ∧
    (∀ (u : Int) (m : String) (t : EpcValue), t.isList = false →
      fromSexprOfList [.symbol "call", .int u, .symbol m, t]
        = .ok ⟨.call, toString u, .list [.string m, .list [t]]⟩) ∧
    (∀ (u : Int) (m : String) (t1 t2 : EpcValue) (ts : List EpcValue),
      fromSexprOfList (.symbol "call" :: .int u :: .symbol m :: t1 :: t2 :: ts)
        = .ok ⟨.call, toString u, .list [.string m, .list (t1 :: t2 :: ts)]⟩) := by
  refine ⟨fun u m inner => rfl, fun u m => rfl, ?_, ?_⟩
  · intro u m t ht
    cases t <;> first
      | rfl
      | simp [EpcValue.isList] at ht
  · intro u m t1 t2 ts
    cases t1 <;> rfl

/-- Claim C10 witness: the conditional conjunct applied to the single
non-list argument `9`. -/
theorem C10_witness :
    fromSexprOfList [.symbol "call", .int 2, .symbol "f", .int 9]
      = .ok ⟨.call, "2", .list [.string "f", .list [.int 9]]⟩ :=
  C10_single_list_arg_flattened.2.2.1 2 "f" (.int 9) rfl

end Elrpc
